import Mathlib

/-!
Shallow embedding of the Move Anything vocoder audio-FX plugin
(`src/dsp/vocoder.c`) and proofs of the specification claims.

Modelling conventions:
* C `float` arithmetic is modelled by exact rational arithmetic (`ℚ`).
  The transcendental library calls (`sinf`, `expf`, `logf`, `sqrtf`)
  appearing in `recalc_bands` and in the per-block energy scale are not
  rational-valued; they are embedded exactly over `ℝ` (`att_coeff_real`,
  `rel_coeff_real`, `band_f_real`, `band_q_real`), and the state-level
  operations take the coefficient-recomputation routine (respectively the
  square-root routine) as an explicit function argument, so every theorem
  below holds for every choice of that routine, in particular the real one.
* The fixed-capacity `MAX_BANDS = 32` parallel arrays are modelled as
  functions `ℕ → _`; the C code never reads an index `≥ bands`.
* `int16_t` buffers are lists of pairs of integers (left, right sample);
  the stereo-interleaved layout `buf[2*i], buf[2*i+1]` becomes the i-th
  pair.  The 32-bit noise seed is a natural number reduced mod 2^32.
* `atof` on a parameter value string is modelled by the rational number it
  denotes (unparseable text behaves as zero, i.e. the rational 0).
-/

/-- Constant `MAX_BANDS` from vocoder.c. -/
def MAX_BANDS : ℕ := 32

/-- Constant `SAMPLE_RATE` from vocoder.c. -/
def SAMPLE_RATE : ℕ := 44100

/-- State of one 2nd-order state-variable filter (`svf_state_t`). -/
structure SvfState where
  low : ℚ
  band : ℚ
deriving DecidableEq

/-- The zero filter state (what `memset 0` produces). -/
def SvfState.zero : SvfState := ⟨0, 0⟩

/-- Helper `clampf` from vocoder.c. -/
def clampf (x lo hi : ℚ) : ℚ :=
  if x < lo then lo else if x > hi then hi else x

/-- Helper `clampi` from vocoder.c. -/
def clampi (x lo hi : ℤ) : ℤ :=
  if x < lo then lo else if x > hi then hi else x

/-- Helper `snap_bands` from vocoder.c: snap a band count to 8/16/24/32. -/
def snap_bands (v : ℤ) : ℤ :=
  if v ≤ 12 then 8 else if v ≤ 20 then 16 else if v ≤ 28 then 24 else 32

/-- C cast `(int)` / `(int16_t)` of a float: truncation toward zero. -/
def truncQ (q : ℚ) : ℤ :=
  if 0 ≤ q then ⌊q⌋ else ⌈q⌉

/-- One step of the linear congruential generator in `noise_sample`:
`*seed = *seed * 1664525u + 1013904223u` on `uint32_t`. -/
def lcgStep (seed : ℕ) : ℕ :=
  (seed * 1664525 + 1013904223) % 2 ^ 32

/-- The `(int32_t)` reinterpretation of a 32-bit unsigned value. -/
def toSigned32 (s : ℕ) : ℤ :=
  if s < 2 ^ 31 then (s : ℤ) else (s : ℤ) - 2 ^ 32

/-- The float returned by `noise_sample` once the seed has been advanced:
`(float)(int32_t)(*seed) / 2147483648.0f`. -/
def noiseOfSeed (s : ℕ) : ℚ :=
  (toSigned32 s : ℚ) / 2147483648

/-- Filter update `svf_bandpass` from vocoder.c: updates the filter state and returns the
new state together with the bandpass output (the new `band` accumulator). -/
def svf_bandpass (s : SvfState) (input f q : ℚ) : SvfState × ℚ :=
  let low := s.low + f * s.band
  let high := input - low - q * s.band
  let band := s.band + f * high
  (⟨low, band⟩, band)

/-- Envelope update `env_follow` from vocoder.c, over an arbitrary linear ordered field so it
can be instantiated both at `ℚ` (block processing) and at `ℝ` (with the real
envelope coefficients).  Returns the updated level, which is also the output. -/
def env_follow {α : Type} [LinearOrderedField α] (level input att rel : α) : α :=
  let rect := |input|
  let coeff := if rect > level then att else rel
  level + coeff * (rect - level)

/-- Derived per-band coefficients of an instance (the fields `band_f`,
`band_q`, `att_coeff`, `rel_coeff` written by `recalc_bands`).  Their values
are transcendental reals; the rational state model stores whatever the
injected recomputation routine produces. -/
structure Coeffs where
  band_f : ℕ → ℚ
  band_q : ℕ → ℚ
  att_coeff : ℚ
  rel_coeff : ℚ

/-- Instance state `vocoder_instance_t` from vocoder.c. -/
structure Voc where
  bands : ℤ
  freq_low : ℚ
  freq_high : ℚ
  attack_ms : ℚ
  release_ms : ℚ
  mod_gain : ℚ
  mix : ℚ
  carrier_mix : ℚ
  coeffs : Coeffs
  mod_svf_l : ℕ → SvfState
  mod_svf_r : ℕ → SvfState
  car_svf_l : ℕ → SvfState
  car_svf_r : ℕ → SvfState
  mod_env_l : ℕ → ℚ
  mod_env_r : ℕ → ℚ
  noise_seed : ℕ

/-- State reset `clear_filters` from vocoder.c: zero all six state arrays. -/
def clear_filters (v : Voc) : Voc :=
  { v with
    mod_svf_l := fun _ => SvfState.zero
    mod_svf_r := fun _ => SvfState.zero
    car_svf_l := fun _ => SvfState.zero
    car_svf_r := fun _ => SvfState.zero
    mod_env_l := fun _ => 0
    mod_env_r := fun _ => 0 }

/-- All six filter/envelope state arrays of `v` read as zero on the whole
`MAX_BANDS` capacity. -/
def allStateZero (v : Voc) : Prop :=
  ∀ i < MAX_BANDS,
    v.mod_svf_l i = SvfState.zero ∧ v.mod_svf_r i = SvfState.zero ∧
    v.car_svf_l i = SvfState.zero ∧ v.car_svf_r i = SvfState.zero ∧
    v.mod_env_l i = 0 ∧ v.mod_env_r i = 0

instance (v : Voc) : Decidable (allStateZero v) := by
  unfold allStateZero; infer_instance

/-- The real-valued envelope attack/release coefficient computed by
`recalc_bands`: given the time constant in ms (floored at 0.1 ms),
`1 - expf(-1 / (ms * 0.001 * SAMPLE_RATE))`. -/
noncomputable def env_coeff_real (ms : ℝ) : ℝ :=
  1 - Real.exp (-(1 / ((if ms < 0.1 then 0.1 else ms) * 0.001 * 44100)))

/-- The real-valued per-band SVF frequency coefficient from `recalc_bands`:
logarithmically spaced centre frequency, `f = 2 sin(π fc / sr)` clamped to 1. -/
noncomputable def band_f_real (freqLow freqHigh : ℝ) (n i : ℕ) : ℝ :=
  let t : ℝ := if 1 < n then (i : ℝ) / ((n : ℝ) - 1) else 0.5
  let fc := Real.exp (Real.log freqLow + t * (Real.log freqHigh - Real.log freqLow))
  let f := 2 * Real.sin (Real.pi * fc / 44100)
  if f > 1 then 1 else f

/-- The real-valued per-band reciprocal-Q from `recalc_bands` (uniform across
bands): `1 / (1 + 0.5 * sqrt n)`. -/
noncomputable def band_q_real (n : ℕ) : ℝ :=
  1 / (1 + 0.5 * Real.sqrt (n : ℝ))

/-- Structured `"state"` value for `v2_set_param`, with one optional field per
JSON key: `none` models a key `json_get_int`/`json_get_float` does not find,
`some x` a key found with (atof/atoi) value `x`. -/
structure StateMsg where
  bands : Option ℤ
  freq_low : Option ℚ
  freq_high : Option ℚ
  attack : Option ℚ
  release : Option ℚ
  mod_gain : Option ℚ
  mix : Option ℚ
  carrier_mix : Option ℚ

/-- The field-application part of the `"state"` branch of `v2_set_param`:
apply each present field clamped to its range, skipping absent fields. -/
def applyStateFields (msg : StateMsg) (v : Voc) : Voc :=
  let v := match msg.bands with
    | some iv => { v with bands := snap_bands (clampi iv 8 32) }
    | none => v
  let v := match msg.freq_low with
    | some fv => { v with freq_low := clampf fv 80 500 }
    | none => v
  let v := match msg.freq_high with
    | some fv => { v with freq_high := clampf fv 2000 12000 }
    | none => v
  let v := match msg.attack with
    | some fv => { v with attack_ms := clampf fv 0.1 50 }
    | none => v
  let v := match msg.release with
    | some fv => { v with release_ms := clampf fv 5 500 }
    | none => v
  let v := match msg.mod_gain with
    | some fv => { v with mod_gain := clampf fv 0 3 }
    | none => v
  let v := match msg.mix with
    | some fv => { v with mix := clampf fv 0 1 }
    | none => v
  let v := match msg.carrier_mix with
    | some fv => { v with carrier_mix := clampf fv 0 1 }
    | none => v
  v

/-- The `"state"` branch of `v2_set_param`: apply each present field clamped
to its range, then unconditionally `clear_filters` and `recalc_bands` once
(the recomputation routine `recalc` is injected, see the module comment). -/
def v2_set_state (recalc : Voc → Coeffs) (msg : StateMsg) (v : Voc) : Voc :=
  let u := clear_filters (applyStateFields msg v)
  { u with coeffs := recalc u }

/-- The scalar-key part of `v2_set_param` from vocoder.c.  `fv` is the value
`(float)atof(val)` of the argument string; the `"state"` branch takes a
structured value and is modelled separately by `v2_set_state`. -/
def v2_set_param (recalc : Voc → Coeffs) (v : Voc) (key : String) (fv : ℚ) : Voc :=
  if key = "bands" then
    let new_bands := snap_bands (clampi (truncQ fv) 8 32)
    if new_bands ≠ v.bands then
      let v := { v with bands := new_bands }
      let v := clear_filters v
      { v with coeffs := recalc v }
    else v
  else if key = "freq_low" then
    let v := { v with freq_low := clampf fv 80 500 }
    { v with coeffs := recalc v }
  else if key = "freq_high" then
    let v := { v with freq_high := clampf fv 2000 12000 }
    { v with coeffs := recalc v }
  else if key = "attack" then
    let v := { v with attack_ms := clampf fv 0.1 50 }
    { v with coeffs := recalc v }
  else if key = "release" then
    let v := { v with release_ms := clampf fv 5 500 }
    { v with coeffs := recalc v }
  else if key = "mod_gain" then
    { v with mod_gain := clampf fv 0 3 }
  else if key = "mix" then
    { v with mix := clampf fv 0 1 }
  else if key = "carrier_mix" then
    { v with carrier_mix := clampf fv 0 1 }
  else v

/-- The lines of `v2_process_block` that add noise to the carrier
(`ns = noise_sample(&seed); car_noise = car + ns * noise_mix` for both
channels): given the seed before the frame, the carrier-mix amount and the
two carrier samples, return the two noise-augmented carrier samples. -/
def carrierNoise (seed : ℕ) (cmix cl cr : ℚ) : ℚ × ℚ :=
  let ns := noiseOfSeed (lcgStep seed)
  (cl + ns * cmix, cr + ns * cmix)

/-- The inner band loop of `v2_process_block`: process bands `0..k-1` of one
frame, threading the instance (whose six state arrays are updated at index
`b` only) and accumulating the two output sums.  `att`/`rel` are the locals
read from `att_coeff`/`rel_coeff` before the loop. -/
def bandLoop (att rel modL modR carNL carNR : ℚ) (v : Voc) : ℕ → Voc × ℚ × ℚ
  | 0 => (v, 0, 0)
  | k + 1 =>
    let r := bandLoop att rel modL modR carNL carNR v k
    let w := r.1
    let f := w.coeffs.band_f k
    let q := w.coeffs.band_q k
    let ml := svf_bandpass (w.mod_svf_l k) modL f q
    let mr := svf_bandpass (w.mod_svf_r k) modR f q
    let env_l := env_follow (w.mod_env_l k) ml.2 att rel
    let env_r := env_follow (w.mod_env_r k) mr.2 att rel
    let cl := svf_bandpass (w.car_svf_l k) carNL f q
    let cr := svf_bandpass (w.car_svf_r k) carNR f q
    let w := { w with
      mod_svf_l := Function.update w.mod_svf_l k ml.1
      mod_svf_r := Function.update w.mod_svf_r k mr.1
      car_svf_l := Function.update w.car_svf_l k cl.1
      car_svf_r := Function.update w.car_svf_r k cr.1
      mod_env_l := Function.update w.mod_env_l k env_l
      mod_env_r := Function.update w.mod_env_r k env_r }
    (w, r.2.1 + cl.2 * env_l, r.2.2 + cr.2 * env_r)

/-- One iteration of the frame loop of `v2_process_block`.  `car` is the
stereo carrier pair `audio_inout[2i], audio_inout[2i+1]`, `mic` the stereo
modulator pair from the host input buffer.  `sq` models `sqrtf` (see the
module comment); the energy scale is `2 / sqrtf((float)n)`.  Returns the
stereo output pair written back in place and the updated instance. -/
def frameStep (sq : ℚ → ℚ) (v : Voc) (car mic : ℤ × ℤ) : (ℤ × ℤ) × Voc :=
  let car_l : ℚ := (car.1 : ℚ) / 32768
  let car_r : ℚ := (car.2 : ℚ) / 32768
  let mod_l : ℚ := (mic.1 : ℚ) / 32768 * v.mod_gain
  let mod_r : ℚ := (mic.2 : ℚ) / 32768 * v.mod_gain
  let cn := carrierNoise v.noise_seed v.carrier_mix car_l car_r
  let v' := { v with noise_seed := lcgStep v.noise_seed }
  let r := bandLoop v.coeffs.att_coeff v.coeffs.rel_coeff
    mod_l mod_r cn.1 cn.2 v' v.bands.toNat
  let scale := 2 / sq ((v.bands : ℚ))
  let wet := v.mix
  let dry := 1 - wet
  let mix_l := clampf (r.2.1 * scale * wet + car_l * dry) (-1) 1
  let mix_r := clampf (r.2.2 * scale * wet + car_r * dry) (-1) 1
  ((truncQ (mix_l * 32767), truncQ (mix_r * 32767)), r.1)

/-- The frame loop of `v2_process_block` over a list of
(carrier, modulator) frame pairs. -/
def blockRun (sq : ℚ → ℚ) (v : Voc) : List ((ℤ × ℤ) × (ℤ × ℤ)) → List (ℤ × ℤ) × Voc
  | [] => ([], v)
  | fr :: rest =>
    let r := frameStep sq v fr.1 fr.2
    let rr := blockRun sq r.2 rest
    (r.1 :: rr.1, rr.2)

/-- Block processing `v2_process_block` from vocoder.c on a valid instance with the host
binding available: the carrier buffer `audio` is processed in place against
the modulator buffer `mic` read from the host's input region; `frames` is
the common length (modelled by zipping the two buffers). -/
def v2_process_block (sq : ℚ → ℚ) (v : Voc) (audio mic : List (ℤ × ℤ)) :
    List (ℤ × ℤ) × Voc :=
  blockRun sq v (audio.zip mic)

/-- Constructor `v2_create_instance` from vocoder.c: zero-initialised instance with the
default parameters, coefficients recomputed once by the injected routine. -/
def v2_create_instance (recalc : Voc → Coeffs) : Voc :=
  let v : Voc :=
    { bands := 16
      freq_low := 100
      freq_high := 8000
      attack_ms := 5
      release_ms := 50
      mod_gain := 1
      mix := 1
      carrier_mix := 0.1
      coeffs := ⟨fun _ => 0, fun _ => 0, 0, 0⟩
      mod_svf_l := fun _ => SvfState.zero
      mod_svf_r := fun _ => SvfState.zero
      car_svf_l := fun _ => SvfState.zero
      car_svf_r := fun _ => SvfState.zero
      mod_env_l := fun _ => 0
      mod_env_r := fun _ => 0
      noise_seed := 12345 }
  { v with coeffs := recalc v }

/-- Formatting `printf "%.1f"` of a rational: round to one decimal (round to nearest;
the tie direction is immaterial to every claim below) and render. -/
def decStr1 (q : ℚ) : String :=
  let n : ℤ := round (q * 10)
  (if n < 0 then "-" else "") ++ toString (n.natAbs / 10) ++ "." ++
    toString (n.natAbs % 10)

/-- Formatting `printf "%.2f"` of a rational: round to two decimals and render. -/
def decStr2 (q : ℚ) : String :=
  let n : ℤ := round (q * 100)
  (if n < 0 then "-" else "") ++ toString (n.natAbs / 100) ++ "." ++
    (if n.natAbs % 100 < 10 then "0" else "") ++ toString (n.natAbs % 100)

/-- The `"state"` string formatted by `v2_get_param` (the
`snprintf` format at vocoder.c:403-409). -/
def stateString (v : Voc) : String :=
  "\x7b\"bands\":" ++ toString v.bands ++
  ",\"freq_low\":" ++ decStr1 v.freq_low ++
  ",\"freq_high\":" ++ decStr1 v.freq_high ++
  ",\"attack\":" ++ decStr1 v.attack_ms ++
  ",\"release\":" ++ decStr1 v.release_ms ++
  ",\"mod_gain\":" ++ decStr2 v.mod_gain ++
  ",\"mix\":" ++ decStr2 v.mix ++
  ",\"carrier_mix\":" ++ decStr2 v.carrier_mix ++ "\x7d"

/-- The fixed `ui_hierarchy` metadata string from vocoder.c. -/
def uiHierarchyStr : String :=
  "\x7b\"modes\":null,\"levels\":\x7b\"root\":\x7b\"children\":null," ++
  "\"knobs\":[\"bands\",\"freq_low\",\"freq_high\",\"attack\"," ++
  "\"release\",\"mod_gain\",\"mix\",\"carrier_mix\"]," ++
  "\"params\":[\"bands\",\"freq_low\",\"freq_high\",\"attack\"," ++
  "\"release\",\"mod_gain\",\"mix\",\"carrier_mix\"]\x7d\x7d\x7d"

/-- The fixed `chain_params` metadata string from vocoder.c. -/
def chainParamsStr : String :=
  "[\x7b\"key\":\"bands\",\"name\":\"Bands\",\"type\":\"enum\"," ++
  "\"options\":[\"8\",\"16\",\"24\",\"32\"],\"default\":\"16\"\x7d," ++
  "\x7b\"key\":\"freq_low\",\"name\":\"Low Freq\",\"type\":\"float\"," ++
  "\"min\":80,\"max\":500,\"default\":100,\"step\":10,\"unit\":\"Hz\"\x7d," ++
  "\x7b\"key\":\"freq_high\",\"name\":\"High Freq\",\"type\":\"float\"," ++
  "\"min\":2000,\"max\":12000,\"default\":8000,\"step\":100,\"unit\":\"Hz\"\x7d," ++
  "\x7b\"key\":\"attack\",\"name\":\"Attack\",\"type\":\"float\"," ++
  "\"min\":0.1,\"max\":50,\"default\":5,\"step\":0.5,\"unit\":\"ms\"\x7d," ++
  "\x7b\"key\":\"release\",\"name\":\"Release\",\"type\":\"float\"," ++
  "\"min\":5,\"max\":500,\"default\":50,\"step\":5,\"unit\":\"ms\"\x7d," ++
  "\x7b\"key\":\"mod_gain\",\"name\":\"Mod Gain\",\"type\":\"float\"," ++
  "\"min\":0,\"max\":3,\"default\":1,\"step\":0.05\x7d," ++
  "\x7b\"key\":\"mix\",\"name\":\"Mix\",\"type\":\"float\"," ++
  "\"min\":0,\"max\":1,\"default\":1,\"step\":0.01\x7d," ++
  "\x7b\"key\":\"carrier_mix\",\"name\":\"Unvoiced\",\"type\":\"float\"," ++
  "\"min\":0,\"max\":1,\"default\":0.1,\"step\":0.01\x7d]"

/-- Query `v2_get_param` from vocoder.c on a valid instance.  The `snprintf` calls
return the length the full formatted string would have, regardless of
`buf_len` (C99 semantics; on a too-small buffer the written bytes are
truncated but the full length is still returned).  Only the `ui_hierarchy`
and `chain_params` branches check the buffer size explicitly and return -1
when the string does not fit. -/
def v2_get_param (v : Voc) (key : String) (buf_len : ℤ) : ℤ :=
  if key = "name" then (("Vocoder" : String).length : ℤ)
  else if key = "bands" then ((toString v.bands).length : ℤ)
  else if key = "freq_low" then ((decStr1 v.freq_low).length : ℤ)
  else if key = "freq_high" then ((decStr1 v.freq_high).length : ℤ)
  else if key = "attack" then ((decStr1 v.attack_ms).length : ℤ)
  else if key = "release" then ((decStr1 v.release_ms).length : ℤ)
  else if key = "mod_gain" then ((decStr2 v.mod_gain).length : ℤ)
  else if key = "mix" then ((decStr2 v.mix).length : ℤ)
  else if key = "carrier_mix" then ((decStr2 v.carrier_mix).length : ℤ)
  else if key = "state" then ((stateString v).length : ℤ)
  else if key = "ui_hierarchy" then
    (if (uiHierarchyStr.length : ℤ) < buf_len then (uiHierarchyStr.length : ℤ) else -1)
  else if key = "chain_params" then
    (if (chainParamsStr.length : ℤ) < buf_len then (chainParamsStr.length : ℤ) else -1)
  else -1

/-- A trivial coefficient record, used to build concrete instances for
witnesses and counterexamples (the claims below hold for every
recomputation routine). -/
def coeffs0 : Coeffs := ⟨fun _ => 0, fun _ => 0, 0, 0⟩

/-- A concrete coefficient-recomputation routine for witnesses and
counterexamples. -/
def recalc0 : Voc → Coeffs := fun _ => coeffs0

/-- A concrete square-root stand-in for witnesses and counterexamples
(the statements instantiated with it do not depend on its values). -/
def sqId : ℚ → ℚ := fun q => q

/-- The freshly created instance with the default parameters. -/
def defaultVoc : Voc := v2_create_instance recalc0

/-- The default instance with a nonzero modulator filter state, as left
behind by processed blocks; used to exhibit missing state resets. -/
def dirtyVoc : Voc :=
  { defaultVoc with
    mod_svf_l := Function.update defaultVoc.mod_svf_l 0 ⟨1, 1⟩ }

/-- The default instance with `mix = 0` (fully dry). -/
def mixZeroVoc : Voc := { defaultVoc with mix := 0 }

/-- Clamping is the identity within the bounds. -/
theorem clampf_eq_self {x lo hi : ℚ} (h1 : lo ≤ x) (h2 : x ≤ hi) :
    clampf x lo hi = x := by
  unfold clampf
  split_ifs with ha hb
  · linarith
  · linarith
  · rfl

/-- Clamping lands within the bounds. -/
theorem clampf_mem {x lo hi : ℚ} (h : lo ≤ hi) :
    lo ≤ clampf x lo hi ∧ clampf x lo hi ≤ hi := by
  unfold clampf
  split_ifs with ha hb
  · exact ⟨le_refl _, h⟩
  · exact ⟨h, le_refl _⟩
  · exact ⟨by linarith, by linarith⟩

/-- Truncation of an integer-valued rational is that integer. -/
theorem truncQ_intCast (x : ℤ) : truncQ (x : ℚ) = x := by
  unfold truncQ
  split_ifs <;> simp

/-- Truncation toward zero stays within symmetric integer bounds. -/
theorem truncQ_bounds {q : ℚ} {B : ℤ} (hB : 0 ≤ B)
    (h1 : -(B : ℚ) ≤ q) (h2 : q ≤ (B : ℚ)) :
    -B ≤ truncQ q ∧ truncQ q ≤ B := by
  unfold truncQ
  split_ifs with h0
  · constructor
    · have : (0 : ℤ) ≤ ⌊q⌋ := Int.le_floor.mpr (by exact_mod_cast h0)
      omega
    · have : ⌊q⌋ ≤ ⌊(B : ℚ)⌋ := Int.floor_le_floor h2
      simpa using this
  · constructor
    · have h : ⌈-(B : ℚ)⌉ ≤ ⌈q⌉ := Int.ceil_le_ceil h1
      rw [Int.ceil_neg, Int.floor_intCast] at h
      exact h
    · have : ⌈q⌉ ≤ ⌈(0 : ℚ)⌉ := Int.ceil_le_ceil (le_of_not_le h0)
      simp at this
      omega

/-- Snapping after clamping to [8,32] gives the four-way bracket formula. -/
theorem snap_clampi_eq (x : ℤ) :
    snap_bands (clampi x 8 32) =
      if x ≤ 12 then 8 else if x ≤ 20 then 16 else if x ≤ 28 then 24 else 32 := by
  unfold snap_bands clampi
  split_ifs <;> omega

/-- The `"bands"` branch of `v2_set_param` always stores the snapped value
(also when the snapped value equals the stored one and the branch body is
skipped). -/
theorem set_param_bands_eq (recalc : Voc → Coeffs) (v : Voc) (fv : ℚ) :
    (v2_set_param recalc v "bands" fv).bands =
      snap_bands (clampi (truncQ fv) 8 32) := by
  unfold v2_set_param
  rw [if_pos rfl]
  by_cases h : snap_bands (clampi (truncQ fv) 8 32) ≠ v.bands
  · rw [if_pos h]
    simp [clear_filters]
  · rw [if_neg h]
    push_neg at h
    exact h.symm

/-- C4: for every integer input x, `setParameter("bands", x)` stores exactly
the snapped value (8 for x ≤ 12, 16 for x ≤ 20, 24 for x ≤ 28, else 32); the
stored value is always in {8,16,24,32}, is monotone in x, and in particular
x = 5 stores 8 and x = 29 stores 32. -/
theorem bands_snapping_correct :
    ∀ (recalc : Voc → Coeffs) (v : Voc) (x : ℤ),
      ((v2_set_param recalc v "bands" (x : ℚ)).bands =
          if x ≤ 12 then 8 else if x ≤ 20 then 16 else if x ≤ 28 then 24 else 32) ∧
      (v2_set_param recalc v "bands" (x : ℚ)).bands ∈ ([8, 16, 24, 32] : List ℤ) ∧
      (∀ y : ℤ, x ≤ y →
          (v2_set_param recalc v "bands" (x : ℚ)).bands ≤
            (v2_set_param recalc v "bands" (y : ℚ)).bands) ∧
      (v2_set_param recalc v "bands" ((5 : ℤ) : ℚ)).bands = 8 ∧
      (v2_set_param recalc v "bands" ((29 : ℤ) : ℚ)).bands = 32 := by
  intro recalc v x
  have key : ∀ z : ℤ, (v2_set_param recalc v "bands" (z : ℚ)).bands =
      if z ≤ 12 then 8 else if z ≤ 20 then 16 else if z ≤ 28 then 24 else 32 := by
    intro z
    rw [set_param_bands_eq, truncQ_intCast, snap_clampi_eq]
  refine ⟨key x, ?_, ?_, ?_, ?_⟩
  · rw [key x]; split_ifs <;> simp
  · intro y hxy
    rw [key x, key y]
    split_ifs <;> omega
  · rw [key 5]; norm_num
  · rw [key 29]; norm_num

/-- Witness for C4 at concrete inputs: x = 5 snaps to 8, and the stored value
is monotone from x = 13 to x = 25. -/
theorem bands_snapping_correct_witness :
    (v2_set_param recalc0 defaultVoc "bands" ((5 : ℤ) : ℚ)).bands = 8 ∧
    (v2_set_param recalc0 defaultVoc "bands" ((13 : ℤ) : ℚ)).bands ≤
      (v2_set_param recalc0 defaultVoc "bands" ((25 : ℤ) : ℚ)).bands :=
  ⟨(bands_snapping_correct recalc0 defaultVoc 5).2.2.2.1,
   (bands_snapping_correct recalc0 defaultVoc 13).2.2.1 25 (by decide)⟩

/-- The recognized keys of `v2_set_param`. -/
def setParamKeys : List String :=
  ["state", "bands", "freq_low", "freq_high", "attack", "release",
   "mod_gain", "mix", "carrier_mix"]

/-- C9: a `setParameter` call with key `mod_gain`, `mix`, or `carrier_mix`
changes only that one parameter field: all bandpass filter state arrays,
both envelope-level arrays, the derived coefficients, the noise seed and
every other parameter field are untouched; a call with an unrecognized key
leaves the instance entirely unchanged. -/
theorem non_topology_keys_preserve_state :
    ∀ (recalc : Voc → Coeffs) (v : Voc) (fv : ℚ) (key : String),
      ((key = "mod_gain" ∨ key = "mix" ∨ key = "carrier_mix") →
        ((v2_set_param recalc v key fv).coeffs = v.coeffs ∧
         (v2_set_param recalc v key fv).mod_svf_l = v.mod_svf_l ∧
         (v2_set_param recalc v key fv).mod_svf_r = v.mod_svf_r ∧
         (v2_set_param recalc v key fv).car_svf_l = v.car_svf_l ∧
         (v2_set_param recalc v key fv).car_svf_r = v.car_svf_r ∧
         (v2_set_param recalc v key fv).mod_env_l = v.mod_env_l ∧
         (v2_set_param recalc v key fv).mod_env_r = v.mod_env_r ∧
         (v2_set_param recalc v key fv).noise_seed = v.noise_seed ∧
         (v2_set_param recalc v key fv).bands = v.bands ∧
         (v2_set_param recalc v key fv).freq_low = v.freq_low ∧
         (v2_set_param recalc v key fv).freq_high = v.freq_high ∧
         (v2_set_param recalc v key fv).attack_ms = v.attack_ms ∧
         (v2_set_param recalc v key fv).release_ms = v.release_ms ∧
         (key ≠ "mod_gain" → (v2_set_param recalc v key fv).mod_gain = v.mod_gain) ∧
         (key ≠ "mix" → (v2_set_param recalc v key fv).mix = v.mix) ∧
         (key ≠ "carrier_mix" →
           (v2_set_param recalc v key fv).carrier_mix = v.carrier_mix))) ∧
      (key ∉ setParamKeys → v2_set_param recalc v key fv = v) := by
  intro recalc v fv key
  constructor
  · rintro (rfl | rfl | rfl) <;> simp [v2_set_param]
  · intro h
    simp only [setParamKeys, List.mem_cons, List.not_mem_nil, not_or, or_false] at h
    obtain ⟨-, h2, h3, h4, h5, h6, h7, h8, h9⟩ := h
    unfold v2_set_param
    rw [if_neg h2, if_neg h3, if_neg h4, if_neg h5, if_neg h6, if_neg h7,
      if_neg h8, if_neg h9]

/-- Witness for C9: setting `mod_gain` on the default instance keeps `mix`,
and an unrecognized key leaves the instance unchanged. -/
theorem non_topology_keys_preserve_state_witness :
    (v2_set_param recalc0 defaultVoc "mod_gain" 2).mix = defaultVoc.mix ∧
    v2_set_param recalc0 defaultVoc "wobble" 1 = defaultVoc := by
  constructor
  · exact (((non_topology_keys_preserve_state recalc0 defaultVoc 2
      "mod_gain").1 (Or.inl rfl)).2.2.2.2.2.2.2.2.2.2.2.2.2.2.1) (by decide)
  · exact (non_topology_keys_preserve_state recalc0 defaultVoc 1 "wobble").2
      (by decide)

/-- C1 (amended): state reset on topology change.  A `"bands"` call whose
snapped value differs from the stored band count zeroes all four bandpass
filter state arrays and both envelope-level arrays; but `"freq_low"` and
`"freq_high"` calls leave all six state arrays untouched (vocoder.c calls
`clear_filters` only in the `"bands"` and `"state"` branches). -/
theorem topology_reset_amended :
    ∀ (recalc : Voc → Coeffs) (v : Voc) (fv : ℚ),
      (snap_bands (clampi (truncQ fv) 8 32) ≠ v.bands →
        allStateZero (v2_set_param recalc v "bands" fv)) ∧
      ((v2_set_param recalc v "freq_low" fv).mod_svf_l = v.mod_svf_l ∧
       (v2_set_param recalc v "freq_low" fv).mod_svf_r = v.mod_svf_r ∧
       (v2_set_param recalc v "freq_low" fv).car_svf_l = v.car_svf_l ∧
       (v2_set_param recalc v "freq_low" fv).car_svf_r = v.car_svf_r ∧
       (v2_set_param recalc v "freq_low" fv).mod_env_l = v.mod_env_l ∧
       (v2_set_param recalc v "freq_low" fv).mod_env_r = v.mod_env_r) ∧
      ((v2_set_param recalc v "freq_high" fv).mod_svf_l = v.mod_svf_l ∧
       (v2_set_param recalc v "freq_high" fv).mod_svf_r = v.mod_svf_r ∧
       (v2_set_param recalc v "freq_high" fv).car_svf_l = v.car_svf_l ∧
       (v2_set_param recalc v "freq_high" fv).car_svf_r = v.car_svf_r ∧
       (v2_set_param recalc v "freq_high" fv).mod_env_l = v.mod_env_l ∧
       (v2_set_param recalc v "freq_high" fv).mod_env_r = v.mod_env_r) := by
  intro recalc v fv
  refine ⟨?_, ?_, ?_⟩
  · intro h
    unfold v2_set_param
    rw [if_pos rfl, if_pos h]
    simp [clear_filters, allStateZero]
  · simp [v2_set_param]
  · simp [v2_set_param]

/-- Witness for C1 (amended): snapping 8 on the default 16-band instance is a
real change, after which all state arrays read zero. -/
theorem topology_reset_amended_witness :
    snap_bands (clampi (truncQ (8 : ℚ)) 8 32) ≠ defaultVoc.bands ∧
    allStateZero (v2_set_param recalc0 defaultVoc "bands" 8) :=
  ⟨by decide, (topology_reset_amended recalc0 defaultVoc 8).1 (by decide)⟩

/-- Counterexample to C1 as stated: on an instance with a nonzero modulator
filter state, `setParameter("freq_low", 200)` changes `freq_low` (100 → 200)
but performs no state reset, so the state does not read as zero. -/
theorem topology_reset_counterexample :
    dirtyVoc.freq_low = 100 ∧
    (v2_set_param recalc0 dirtyVoc "freq_low" 200).freq_low = 200 ∧
    ¬ allStateZero (v2_set_param recalc0 dirtyVoc "freq_low" 200) := by
  refine ⟨by decide, by decide, by decide⟩

/-- C6: `setState` applies every present field (clamped to its range),
leaves every absent field unchanged (no rollback, independent of the other
fields), and always ends with exactly one full filter/envelope state reset
and one coefficient recomputation from the fully-updated instance,
regardless of which fields were present. -/
theorem set_state_batch_semantics :
    ∀ (recalc : Voc → Coeffs) (msg : StateMsg) (v : Voc),
      ((v2_set_state recalc msg v).bands =
        (match msg.bands with
         | some iv => snap_bands (clampi iv 8 32)
         | none => v.bands)) ∧
      ((v2_set_state recalc msg v).freq_low =
        (match msg.freq_low with
         | some fv => clampf fv 80 500
         | none => v.freq_low)) ∧
      ((v2_set_state recalc msg v).freq_high =
        (match msg.freq_high with
         | some fv => clampf fv 2000 12000
         | none => v.freq_high)) ∧
      ((v2_set_state recalc msg v).attack_ms =
        (match msg.attack with
         | some fv => clampf fv 0.1 50
         | none => v.attack_ms)) ∧
      ((v2_set_state recalc msg v).release_ms =
        (match msg.release with
         | some fv => clampf fv 5 500
         | none => v.release_ms)) ∧
      ((v2_set_state recalc msg v).mod_gain =
        (match msg.mod_gain with
         | some fv => clampf fv 0 3
         | none => v.mod_gain)) ∧
      ((v2_set_state recalc msg v).mix =
        (match msg.mix with
         | some fv => clampf fv 0 1
         | none => v.mix)) ∧
      ((v2_set_state recalc msg v).carrier_mix =
        (match msg.carrier_mix with
         | some fv => clampf fv 0 1
         | none => v.carrier_mix)) ∧
      allStateZero (v2_set_state recalc msg v) ∧
      (v2_set_state recalc msg v).coeffs =
        recalc (clear_filters (applyStateFields msg v)) := by
  intro recalc msg v
  obtain ⟨b, fl, fh, ak, rl, mg, mx, cm⟩ := msg
  cases b <;> cases fl <;> cases fh <;> cases ak <;> cases rl <;>
    cases mg <;> cases mx <;> cases cm <;>
    simp [v2_set_state, applyStateFields, clear_filters, allStateZero]


/-- The keys recognized by `v2_get_param`. -/
def getParamKeys : List String :=
  ["name", "bands", "freq_low", "freq_high", "attack", "release",
   "mod_gain", "mix", "carrier_mix", "state", "ui_hierarchy", "chain_params"]

/-- C2 (amended): `getParameter` returns -1 for an unknown key, and for the
two fixed-metadata keys (`ui_hierarchy`, `chain_params`) when their string
does not fit the buffer.  For every other known key the `snprintf` return
value — the length the full formatted value would have, a nonnegative number
that does not depend on the buffer length — is returned, so a too-small
buffer does NOT yield -1 there (the written bytes are merely truncated). -/
theorem get_param_return_amended :
    ∀ (v : Voc) (key : String) (L : ℤ),
      (key ∉ getParamKeys → v2_get_param v key L = -1) ∧
      (v2_get_param v "name" L = (("Vocoder" : String).length : ℤ)) ∧
      (v2_get_param v "bands" L = ((toString v.bands).length : ℤ)) ∧
      (v2_get_param v "freq_low" L = ((decStr1 v.freq_low).length : ℤ)) ∧
      (v2_get_param v "freq_high" L = ((decStr1 v.freq_high).length : ℤ)) ∧
      (v2_get_param v "attack" L = ((decStr1 v.attack_ms).length : ℤ)) ∧
      (v2_get_param v "release" L = ((decStr1 v.release_ms).length : ℤ)) ∧
      (v2_get_param v "mod_gain" L = ((decStr2 v.mod_gain).length : ℤ)) ∧
      (v2_get_param v "mix" L = ((decStr2 v.mix).length : ℤ)) ∧
      (v2_get_param v "carrier_mix" L = ((decStr2 v.carrier_mix).length : ℤ)) ∧
      (v2_get_param v "state" L = ((stateString v).length : ℤ)) ∧
      (v2_get_param v "ui_hierarchy" L =
        if (uiHierarchyStr.length : ℤ) < L then (uiHierarchyStr.length : ℤ)
        else -1) ∧
      (v2_get_param v "chain_params" L =
        if (chainParamsStr.length : ℤ) < L then (chainParamsStr.length : ℤ)
        else -1) ∧
      (∀ k ∈ (["name", "bands", "freq_low", "freq_high", "attack", "release",
          "mod_gain", "mix", "carrier_mix", "state"] : List String),
        -1 < v2_get_param v k L) := by
  intro v key L
  have e1 : v2_get_param v "name" L = (("Vocoder" : String).length : ℤ) := by
    unfold v2_get_param
    rw [if_pos rfl]
  have e2 : v2_get_param v "bands" L = ((toString v.bands).length : ℤ) := by
    unfold v2_get_param
    rw [if_neg (by decide), if_pos rfl]
  have e3 : v2_get_param v "freq_low" L = ((decStr1 v.freq_low).length : ℤ) := by
    unfold v2_get_param
    rw [if_neg (by decide), if_neg (by decide), if_pos rfl]
  have e4 : v2_get_param v "freq_high" L =
      ((decStr1 v.freq_high).length : ℤ) := by
    unfold v2_get_param
    rw [if_neg (by decide), if_neg (by decide), if_neg (by decide),
      if_pos rfl]
  have e5 : v2_get_param v "attack" L = ((decStr1 v.attack_ms).length : ℤ) := by
    unfold v2_get_param
    rw [if_neg (by decide), if_neg (by decide), if_neg (by decide),
      if_neg (by decide), if_pos rfl]
  have e6 : v2_get_param v "release" L =
      ((decStr1 v.release_ms).length : ℤ) := by
    unfold v2_get_param
    rw [if_neg (by decide), if_neg (by decide), if_neg (by decide),
      if_neg (by decide), if_neg (by decide), if_pos rfl]
  have e7 : v2_get_param v "mod_gain" L = ((decStr2 v.mod_gain).length : ℤ) := by
    unfold v2_get_param
    rw [if_neg (by decide), if_neg (by decide), if_neg (by decide),
      if_neg (by decide), if_neg (by decide), if_neg (by decide), if_pos rfl]
  have e8 : v2_get_param v "mix" L = ((decStr2 v.mix).length : ℤ) := by
    unfold v2_get_param
    rw [if_neg (by decide), if_neg (by decide), if_neg (by decide),
      if_neg (by decide), if_neg (by decide), if_neg (by decide),
      if_neg (by decide), if_pos rfl]
  have e9 : v2_get_param v "carrier_mix" L =
      ((decStr2 v.carrier_mix).length : ℤ) := by
    unfold v2_get_param
    rw [if_neg (by decide), if_neg (by decide), if_neg (by decide),
      if_neg (by decide), if_neg (by decide), if_neg (by decide),
      if_neg (by decide), if_neg (by decide), if_pos rfl]
  have e10 : v2_get_param v "state" L = ((stateString v).length : ℤ) := by
    unfold v2_get_param
    rw [if_neg (by decide), if_neg (by decide), if_neg (by decide),
      if_neg (by decide), if_neg (by decide), if_neg (by decide),
      if_neg (by decide), if_neg (by decide), if_neg (by decide), if_pos rfl]
  have e11 : v2_get_param v "ui_hierarchy" L =
      if (uiHierarchyStr.length : ℤ) < L then (uiHierarchyStr.length : ℤ)
      else -1 := by
    unfold v2_get_param
    rw [if_neg (by decide), if_neg (by decide), if_neg (by decide),
      if_neg (by decide), if_neg (by decide), if_neg (by decide),
      if_neg (by decide), if_neg (by decide), if_neg (by decide),
      if_neg (by decide), if_pos rfl]
  have e12 : v2_get_param v "chain_params" L =
      if (chainParamsStr.length : ℤ) < L then (chainParamsStr.length : ℤ)
      else -1 := by
    unfold v2_get_param
    rw [if_neg (by decide), if_neg (by decide), if_neg (by decide),
      if_neg (by decide), if_neg (by decide), if_neg (by decide),
      if_neg (by decide), if_neg (by decide), if_neg (by decide),
      if_neg (by decide), if_neg (by decide), if_pos rfl]
  refine ⟨?_, e1, e2, e3, e4, e5, e6, e7, e8, e9, e10, e11, e12, ?_⟩
  · intro h
    simp only [getParamKeys, List.mem_cons, List.not_mem_nil, not_or,
      or_false] at h
    obtain ⟨h1, h2, h3, h4, h5, h6, h7, h8, h9, h10, h11, h12⟩ := h
    unfold v2_get_param
    rw [if_neg h1, if_neg h2, if_neg h3, if_neg h4, if_neg h5, if_neg h6,
      if_neg h7, if_neg h8, if_neg h9, if_neg h10, if_neg h11, if_neg h12]
  · intro k hk
    simp only [List.mem_cons, List.not_mem_nil, or_false] at hk
    rcases hk with rfl | rfl | rfl | rfl | rfl | rfl | rfl | rfl | rfl | rfl
    · rw [e1]; exact lt_of_lt_of_le (by norm_num) (Int.natCast_nonneg _)
    · rw [e2]; exact lt_of_lt_of_le (by norm_num) (Int.natCast_nonneg _)
    · rw [e3]; exact lt_of_lt_of_le (by norm_num) (Int.natCast_nonneg _)
    · rw [e4]; exact lt_of_lt_of_le (by norm_num) (Int.natCast_nonneg _)
    · rw [e5]; exact lt_of_lt_of_le (by norm_num) (Int.natCast_nonneg _)
    · rw [e6]; exact lt_of_lt_of_le (by norm_num) (Int.natCast_nonneg _)
    · rw [e7]; exact lt_of_lt_of_le (by norm_num) (Int.natCast_nonneg _)
    · rw [e8]; exact lt_of_lt_of_le (by norm_num) (Int.natCast_nonneg _)
    · rw [e9]; exact lt_of_lt_of_le (by norm_num) (Int.natCast_nonneg _)
    · rw [e10]; exact lt_of_lt_of_le (by norm_num) (Int.natCast_nonneg _)

/-- Witness for C2 (amended) at concrete keys: an unknown key yields -1, and
the `name` query with a 1-byte buffer still returns the full length. -/
theorem get_param_return_amended_witness :
    v2_get_param defaultVoc "zzz" 64 = -1 ∧
    v2_get_param defaultVoc "name" 1 = (("Vocoder" : String).length : ℤ) :=
  ⟨(get_param_return_amended defaultVoc "zzz" 64).1 (by decide),
   (get_param_return_amended defaultVoc "zzz" 1).2.1⟩

/-- Counterexample to C2 as stated: querying `name` with a 3-byte buffer
(too small for "Vocoder" plus its terminator) returns 7, not -1. -/
theorem get_param_small_buffer_counterexample :
    v2_get_param defaultVoc "name" 3 = 7 ∧
    v2_get_param defaultVoc "name" 3 ≠ -1 ∧ (3 : ℤ) < 7 + 1 := by
  refine ⟨by decide, by decide, by norm_num⟩

/-- The numeric effect of formatting with `%.1f` and re-parsing with `atof`:
rounding to one decimal place.  `decStr1` renders exactly the integer
`round (q*10)` over ten, so the `json_get_float` extraction in the `"state"`
branch of `v2_set_param` recovers exactly this value from the string
produced by `v2_get_param("state")`. -/
def dec1 (q : ℚ) : ℚ :=
  ((round (q * 10) : ℤ) : ℚ) / 10

/-- The numeric effect of formatting with `%.2f` and re-parsing with `atof`:
rounding to two decimal places (see `dec1`, `decStr2`). -/
def dec2 (q : ℚ) : ℚ :=
  ((round (q * 100) : ℤ) : ℚ) / 100

/-- The structured value that `v2_set_param("state", ...)` receives when fed
the string produced by `v2_get_param("state")`: every field present, the
float fields carrying the printed (rounded) decimals per `stateString`. -/
def stateMsgOfGet (v : Voc) : StateMsg :=
  { bands := some v.bands
    freq_low := some (dec1 v.freq_low)
    freq_high := some (dec1 v.freq_high)
    attack := some (dec1 v.attack_ms)
    release := some (dec1 v.release_ms)
    mod_gain := some (dec2 v.mod_gain)
    mix := some (dec2 v.mix)
    carrier_mix := some (dec2 v.carrier_mix) }

/-- The data-model invariant on stored parameters: every reachable instance
satisfies it (all assignments clamp, `bands` is always snapped). -/
def paramsInRange (v : Voc) : Prop :=
  v.bands ∈ ([8, 16, 24, 32] : List ℤ) ∧
  80 ≤ v.freq_low ∧ v.freq_low ≤ 500 ∧
  2000 ≤ v.freq_high ∧ v.freq_high ≤ 12000 ∧
  0.1 ≤ v.attack_ms ∧ v.attack_ms ≤ 50 ∧
  5 ≤ v.release_ms ∧ v.release_ms ≤ 500 ∧
  0 ≤ v.mod_gain ∧ v.mod_gain ≤ 3 ∧
  0 ≤ v.mix ∧ v.mix ≤ 1 ∧
  0 ≤ v.carrier_mix ∧ v.carrier_mix ≤ 1

/-- Rounding to nearest is monotone. -/
theorem round_mono_q {x y : ℚ} (h : x ≤ y) : round x ≤ round y := by
  rw [round_eq, round_eq]
  exact Int.floor_le_floor (by linarith)

/-- Rounding to one decimal stays within decimal bounds. -/
theorem dec1_mem_of_mem {q lo hi : ℚ} (hlo : lo ≤ q) (hhi : q ≤ hi)
    (a b : ℤ) (ha : (a : ℚ) = lo * 10) (hb : (b : ℚ) = hi * 10) :
    lo ≤ dec1 q ∧ dec1 q ≤ hi := by
  have h1 : a ≤ round (q * 10) := by
    have h := round_mono_q (show (a : ℚ) ≤ q * 10 by rw [ha]; linarith)
    simpa [round_intCast] using h
  have h2 : round (q * 10) ≤ b := by
    have h := round_mono_q (show q * 10 ≤ (b : ℚ) by rw [hb]; linarith)
    simpa [round_intCast] using h
  constructor
  · unfold dec1
    rw [le_div_iff₀ (by norm_num : (0 : ℚ) < 10), ← ha]
    exact_mod_cast h1
  · unfold dec1
    rw [div_le_iff₀ (by norm_num : (0 : ℚ) < 10), ← hb]
    exact_mod_cast h2

/-- Rounding to two decimals stays within decimal bounds. -/
theorem dec2_mem_of_mem {q lo hi : ℚ} (hlo : lo ≤ q) (hhi : q ≤ hi)
    (a b : ℤ) (ha : (a : ℚ) = lo * 100) (hb : (b : ℚ) = hi * 100) :
    lo ≤ dec2 q ∧ dec2 q ≤ hi := by
  have h1 : a ≤ round (q * 100) := by
    have h := round_mono_q (show (a : ℚ) ≤ q * 100 by rw [ha]; linarith)
    simpa [round_intCast] using h
  have h2 : round (q * 100) ≤ b := by
    have h := round_mono_q (show q * 100 ≤ (b : ℚ) by rw [hb]; linarith)
    simpa [round_intCast] using h
  constructor
  · unfold dec2
    rw [le_div_iff₀ (by norm_num : (0 : ℚ) < 100), ← ha]
    exact_mod_cast h1
  · unfold dec2
    rw [div_le_iff₀ (by norm_num : (0 : ℚ) < 100), ← hb]
    exact_mod_cast h2

/-- C7: feeding the formatted `"state"` record back through
`setParameter("state", ...)` reproduces the stored values up to the
documented formatting precision: `bands` exactly, one decimal for
`freq_low`/`freq_high`/`attack`/`release`, two decimals for
`mod_gain`/`mix`/`carrier_mix` (for every reachable instance, i.e. any
instance satisfying the stored-parameter invariant). -/
theorem state_round_trip :
    ∀ (recalc : Voc → Coeffs) (v : Voc), paramsInRange v →
      (v2_set_state recalc (stateMsgOfGet v) v).bands = v.bands ∧
      (v2_set_state recalc (stateMsgOfGet v) v).freq_low = dec1 v.freq_low ∧
      (v2_set_state recalc (stateMsgOfGet v) v).freq_high = dec1 v.freq_high ∧
      (v2_set_state recalc (stateMsgOfGet v) v).attack_ms = dec1 v.attack_ms ∧
      (v2_set_state recalc (stateMsgOfGet v) v).release_ms = dec1 v.release_ms ∧
      (v2_set_state recalc (stateMsgOfGet v) v).mod_gain = dec2 v.mod_gain ∧
      (v2_set_state recalc (stateMsgOfGet v) v).mix = dec2 v.mix ∧
      (v2_set_state recalc (stateMsgOfGet v) v).carrier_mix =
        dec2 v.carrier_mix := by
  intro recalc v hv
  obtain ⟨hb, hfl1, hfl2, hfh1, hfh2, ha1, ha2, hr1, hr2, hg1, hg2,
    hm1, hm2, hc1, hc2⟩ := hv
  have Hfl := dec1_mem_of_mem hfl1 hfl2 800 5000 (by norm_num) (by norm_num)
  have Hfh := dec1_mem_of_mem hfh1 hfh2 20000 120000 (by norm_num)
    (by norm_num)
  have Ha := dec1_mem_of_mem ha1 ha2 1 500 (by norm_num) (by norm_num)
  have Hr := dec1_mem_of_mem hr1 hr2 50 5000 (by norm_num) (by norm_num)
  have Hg := dec2_mem_of_mem hg1 hg2 0 300 (by norm_num) (by norm_num)
  have Hm := dec2_mem_of_mem hm1 hm2 0 100 (by norm_num) (by norm_num)
  have Hc := dec2_mem_of_mem hc1 hc2 0 100 (by norm_num) (by norm_num)
  refine ⟨?_, ?_, ?_, ?_, ?_, ?_, ?_, ?_⟩ <;>
    simp only [v2_set_state, applyStateFields, stateMsgOfGet, clear_filters]
  · simp only [List.mem_cons, List.not_mem_nil, or_false] at hb
    rcases hb with h | h | h | h <;> rw [h] <;> decide
  · exact clampf_eq_self Hfl.1 Hfl.2
  · exact clampf_eq_self Hfh.1 Hfh.2
  · exact clampf_eq_self Ha.1 Ha.2
  · exact clampf_eq_self Hr.1 Hr.2
  · exact clampf_eq_self Hg.1 Hg.2
  · exact clampf_eq_self Hm.1 Hm.2
  · exact clampf_eq_self Hc.1 Hc.2

/-- Witness for C7 on the default instance. -/
theorem state_round_trip_witness :
    paramsInRange defaultVoc ∧
    (v2_set_state recalc0 (stateMsgOfGet defaultVoc) defaultVoc).freq_low =
      dec1 defaultVoc.freq_low := by
  have h : paramsInRange defaultVoc := by
    norm_num [paramsInRange, defaultVoc, v2_create_instance]
  exact ⟨h, (state_round_trip recalc0 defaultVoc h).2.1⟩

/-- The band loop never touches the `noise_seed` field. -/
theorem bandLoop_noise_seed (att rel a b c d : ℚ) (v : Voc) (k : ℕ) :
    (bandLoop att rel a b c d v k).1.noise_seed = v.noise_seed := by
  induction k with
  | zero => rfl
  | succ n ih =>
    simp only [bandLoop]
    exact ih

/-- The band loop never touches the `mix` field. -/
theorem bandLoop_mix (att rel a b c d : ℚ) (v : Voc) (k : ℕ) :
    (bandLoop att rel a b c d v k).1.mix = v.mix := by
  induction k with
  | zero => rfl
  | succ n ih =>
    simp only [bandLoop]
    exact ih

/-- Each frame advances the noise seed by exactly one LCG iteration. -/
theorem frameStep_noise_seed (sq : ℚ → ℚ) (v : Voc) (car mic : ℤ × ℤ) :
    (frameStep sq v car mic).2.noise_seed = lcgStep v.noise_seed := by
  unfold frameStep
  exact bandLoop_noise_seed _ _ _ _ _ _ _ _

/-- A frame leaves the `mix` parameter unchanged. -/
theorem frameStep_mix (sq : ℚ → ℚ) (v : Voc) (car mic : ℤ × ℤ) :
    (frameStep sq v car mic).2.mix = v.mix := by
  unfold frameStep
  exact bandLoop_mix _ _ _ _ _ _ _ _

/-- A k-frame run advances the seed by the k-fold LCG iterate. -/
theorem blockRun_noise_seed (sq : ℚ → ℚ) (v : Voc)
    (l : List ((ℤ × ℤ) × (ℤ × ℤ))) :
    (blockRun sq v l).2.noise_seed = lcgStep^[l.length] v.noise_seed := by
  induction l generalizing v with
  | nil => rfl
  | cons fr rest ih =>
    simp only [blockRun, List.length_cons]
    rw [ih, frameStep_noise_seed, Function.iterate_succ_apply]

/-- The block writes exactly one stereo output pair per frame processed. -/
theorem blockRun_length (sq : ℚ → ℚ) (v : Voc)
    (l : List ((ℤ × ℤ) × (ℤ × ℤ))) :
    (blockRun sq v l).1.length = l.length := by
  induction l generalizing v with
  | nil => rfl
  | cons fr rest ih =>
    simp only [blockRun, List.length_cons]
    rw [ih]

/-- C8: during block processing each frame advances the 32-bit noise seed by
exactly one LCG iteration `seed' = (seed*1664525 + 1013904223) mod 2^32` — a
k-frame block applies the k-fold iterate — and the single per-frame noise
sample, the signed reading of the new seed over 2^31, is added identically
(scaled by `carrier_mix`) to the left and right carrier channels before
filtering. -/
theorem noise_seed_and_mono_excitation :
    ∀ (sq : ℚ → ℚ) (v : Voc) (audio mic : List (ℤ × ℤ)),
      (audio.length = mic.length →
        (v2_process_block sq v audio mic).2.noise_seed =
          lcgStep^[audio.length] v.noise_seed) ∧
      (∀ (seed : ℕ) (cmix cl cr : ℚ),
        (carrierNoise seed cmix cl cr).1 - cl =
          noiseOfSeed (lcgStep seed) * cmix ∧
        (carrierNoise seed cmix cl cr).2 - cr =
          noiseOfSeed (lcgStep seed) * cmix) := by
  intro sq v audio mic
  constructor
  · intro h
    unfold v2_process_block
    rw [blockRun_noise_seed, List.length_zip, h, min_self]
  · intro seed cmix cl cr
    constructor <;> (unfold carrierNoise; ring)

/-- Witness for C8: one silent frame on the default instance advances the
seed by one LCG iterate. -/
theorem noise_seed_and_mono_excitation_witness :
    (v2_process_block sqId defaultVoc [(0, 0)] [(0, 0)]).2.noise_seed =
      lcgStep^[1] defaultVoc.noise_seed :=
  (noise_seed_and_mono_excitation sqId defaultVoc [(0, 0)] [(0, 0)]).1 rfl

/-- The clamp-convert-write step keeps every sample within one int16 LSB of
full scale: `(int16_t)(clampf(m,-1,1) * 32767.0f)` lies in [-32767, 32767]. -/
theorem trunc_clamp_bounds (m : ℚ) :
    -32768 ≤ truncQ (clampf m (-1) 1 * 32767) ∧
    truncQ (clampf m (-1) 1 * 32767) ≤ 32767 := by
  have hc := @clampf_mem m (-1) 1 (by norm_num)
  have hq1 : -((32767 : ℤ) : ℚ) ≤ clampf m (-1) 1 * 32767 := by
    push_cast
    nlinarith [hc.1, hc.2]
  have hq2 : clampf m (-1) 1 * 32767 ≤ ((32767 : ℤ) : ℚ) := by
    push_cast
    nlinarith [hc.1, hc.2]
  have h := @truncQ_bounds (clampf m (-1) 1 * 32767) 32767 (by norm_num) hq1 hq2
  exact ⟨by omega, h.2⟩

/-- Both stereo samples a frame writes back lie within int16 bounds. -/
theorem frameStep_out_bounds (sq : ℚ → ℚ) (v : Voc) (car mic : ℤ × ℤ) :
    -32768 ≤ (frameStep sq v car mic).1.1 ∧
    (frameStep sq v car mic).1.1 ≤ 32767 ∧
    -32768 ≤ (frameStep sq v car mic).1.2 ∧
    (frameStep sq v car mic).1.2 ≤ 32767 := by
  unfold frameStep
  exact ⟨(trunc_clamp_bounds _).1, (trunc_clamp_bounds _).2,
    (trunc_clamp_bounds _).1, (trunc_clamp_bounds _).2⟩

/-- C5: for every parameter setting and every carrier/modulator content,
every sample `processBlock` writes back lies within the signed 16-bit range
[-32768, 32767] (indeed within [-32767, 32767], because the mixed value is
clamped to [-1,1] before the `* 32767` conversion), and exactly one stereo
pair is written, in place, per processed frame. -/
theorem processed_samples_within_int16 :
    ∀ (sq : ℚ → ℚ) (v : Voc) (audio mic : List (ℤ × ℤ)),
      ((v2_process_block sq v audio mic).1.length =
        min audio.length mic.length) ∧
      ∀ p ∈ (v2_process_block sq v audio mic).1,
        -32768 ≤ p.1 ∧ p.1 ≤ 32767 ∧ -32768 ≤ p.2 ∧ p.2 ≤ 32767 := by
  intro sq v audio mic
  constructor
  · unfold v2_process_block
    rw [blockRun_length, List.length_zip]
  · unfold v2_process_block
    generalize audio.zip mic = l
    induction l generalizing v with
    | nil =>
      intro p hp
      simp [blockRun] at hp
    | cons fr rest ih =>
      intro p hp
      simp only [blockRun, List.mem_cons] at hp
      rcases hp with rfl | hp
      · exact frameStep_out_bounds sq v fr.1 fr.2
      · exact ih _ p hp

/-- What the dry path actually does to an int16 sample: magnitude shrinks by
one least-significant step (the carrier is divided by 32768 but converted
back with a factor of 32767, and the cast truncates toward zero). -/
def dropLsb (x : ℤ) : ℤ :=
  if 0 < x then x - 1 else if x < 0 then x + 1 else 0

/-- The normalize/convert round trip of the dry path on one int16 sample. -/
theorem trunc_pass (x : ℤ) (h1 : -32768 ≤ x) (h2 : x ≤ 32767) :
    truncQ (clampf ((x : ℚ) / 32768) (-1) 1 * 32767) = dropLsb x := by
  have h1q : (-32768 : ℚ) ≤ (x : ℚ) := by exact_mod_cast h1
  have h2q : (x : ℚ) ≤ 32767 := by exact_mod_cast h2
  have hx1 : (-1 : ℚ) ≤ (x : ℚ) / 32768 := by
    rw [le_div_iff₀ (by norm_num : (0 : ℚ) < 32768)]
    linarith
  have hx2 : (x : ℚ) / 32768 ≤ 1 := by
    rw [div_le_iff₀ (by norm_num : (0 : ℚ) < 32768)]
    linarith
  rw [clampf_eq_self hx1 hx2,
    show (x : ℚ) / 32768 * 32767 = ((x * 32767 : ℤ) : ℚ) / 32768 by
      push_cast; ring]
  rcases lt_trichotomy x 0 with hx | hx | hx
  · have hq : ((x * 32767 : ℤ) : ℚ) / 32768 < 0 := by
      apply div_neg_of_neg_of_pos _ (by norm_num)
      exact_mod_cast mul_neg_of_neg_of_pos hx (by norm_num)
    unfold truncQ dropLsb
    rw [if_neg (not_le.mpr hq), if_neg (by omega), if_pos hx,
      Int.ceil_eq_iff]
    constructor
    · push_cast
      rw [lt_div_iff₀ (by norm_num : (0 : ℚ) < 32768)]
      have hxq : (x : ℚ) < 0 := by exact_mod_cast hx
      nlinarith
    · push_cast
      rw [div_le_iff₀ (by norm_num : (0 : ℚ) < 32768)]
      have hxq : -32768 ≤ (x : ℚ) := by exact_mod_cast h1
      nlinarith
  · subst hx
    unfold truncQ dropLsb
    norm_num
  · have hq : (0 : ℚ) ≤ ((x * 32767 : ℤ) : ℚ) / 32768 := by
      apply div_nonneg _ (by norm_num)
      exact_mod_cast mul_nonneg hx.le (by norm_num)
    unfold truncQ dropLsb
    rw [if_pos hq, if_pos hx, Int.floor_eq_iff]
    constructor
    · push_cast
      rw [le_div_iff₀ (by norm_num : (0 : ℚ) < 32768)]
      have hxq : (x : ℚ) ≤ 32767 := by exact_mod_cast h2
      nlinarith
    · push_cast
      rw [div_lt_iff₀ (by norm_num : (0 : ℚ) < 32768)]
      have hxq : (0 : ℚ) < (x : ℚ) := by exact_mod_cast hx
      nlinarith

/-- With `mix = 0`, one frame writes back the dry carrier pair (up to the
one-LSB conversion shrink), irrespective of modulator content, filter and
envelope state, coefficients and noise. -/
theorem frameStep_mix_zero (sq : ℚ → ℚ) (v : Voc) (car mic : ℤ × ℤ)
    (hmix : v.mix = 0)
    (hc1 : -32768 ≤ car.1) (hc2 : car.1 ≤ 32767)
    (hc3 : -32768 ≤ car.2) (hc4 : car.2 ≤ 32767) :
    (frameStep sq v car mic).1 = (dropLsb car.1, dropLsb car.2) := by
  unfold frameStep
  simp only [hmix, mul_zero, zero_add, sub_zero, mul_one]
  rw [Prod.mk.injEq]
  exact ⟨trunc_pass car.1 hc1 hc2, trunc_pass car.2 hc3 hc4⟩

/-- C3 (amended): with `mix = 0` the written-back block equals the carrier
input with every nonzero sample pulled one LSB toward zero (`x-1` for
`x > 0`, `x+1` for `x < 0`, `0` for `0`) — not the bit-exact original — for
any modulator content and any other parameter values.  The shrink comes from
normalizing by 1/32768 but converting back with 32767 and truncating. -/
theorem mix_zero_passthrough :
    ∀ (sq : ℚ → ℚ) (v : Voc) (audio mic : List (ℤ × ℤ)),
      v.mix = 0 →
      audio.length ≤ mic.length →
      (∀ p ∈ audio,
        -32768 ≤ p.1 ∧ p.1 ≤ 32767 ∧ -32768 ≤ p.2 ∧ p.2 ≤ 32767) →
      (v2_process_block sq v audio mic).1 =
        audio.map fun p => (dropLsb p.1, dropLsb p.2) := by
  intro sq v audio
  induction audio generalizing v with
  | nil =>
    intro mic _ _ _
    rfl
  | cons a rest ih =>
    intro mic hmix hlen hb
    cases mic with
    | nil => simp at hlen
    | cons m mrest =>
      have hA := hb a (List.mem_cons_self a rest)
      unfold v2_process_block
      simp only [List.zip_cons_cons, blockRun, List.map_cons]
      rw [frameStep_mix_zero sq v a m hmix hA.1 hA.2.1 hA.2.2.1 hA.2.2.2]
      have htail := ih (frameStep sq v a m).2 mrest
        (by rw [frameStep_mix]; exact hmix)
        (by simpa using hlen)
        (fun p hp => hb p (List.mem_cons_of_mem a hp))
      unfold v2_process_block at htail
      rw [List.cons.injEq]
      exact ⟨rfl, htail⟩

/-- Concrete one-frame evaluation of the dry path: carrier sample 1000 comes
back as 999. -/
theorem mixzero_block_eval :
    (v2_process_block sqId mixZeroVoc [(1000, 0)] [(0, 0)]).1 = [(999, 0)] := by
  unfold v2_process_block
  simp only [List.zip_cons_cons, List.zip_nil_right, blockRun]
  rw [frameStep_mix_zero sqId mixZeroVoc (1000, 0) (0, 0) rfl
    (by norm_num) (by norm_num) (by norm_num) (by norm_num)]
  decide

/-- Witness for C3 (amended) on a concrete block: with `mix = 0` the carrier
pair (1000, 0) comes back as (999, 0). -/
theorem mix_zero_passthrough_witness :
    mixZeroVoc.mix = 0 ∧
    (v2_process_block sqId mixZeroVoc [(1000, 0)] [(0, 0)]).1 = [(999, 0)] := by
  refine ⟨rfl, ?_⟩
  rw [mix_zero_passthrough sqId mixZeroVoc [(1000, 0)] [(0, 0)] rfl
    (by norm_num) ?_]
  · decide
  · intro p hp
    rw [List.mem_singleton] at hp
    subst hp
    exact ⟨by norm_num, by norm_num, by norm_num, by norm_num⟩

/-- Counterexample to C3 as stated: with `mix = 0` the output block is not
sample-for-sample equal to the carrier input — (1000, 0) maps to (999, 0). -/
theorem mix_zero_passthrough_counterexample :
    mixZeroVoc.mix = 0 ∧
    (v2_process_block sqId mixZeroVoc [(1000, 0)] [(0, 0)]).1 ≠ [(1000, 0)] := by
  refine ⟨rfl, ?_⟩
  rw [mixzero_block_eval]
  decide

/-- Witness for C5 on a concrete block: the sample pair written for carrier
(1000, 0) lies within the int16 bounds. -/
theorem processed_samples_within_int16_witness :
    -32768 ≤ (999 : ℤ) ∧ (999 : ℤ) ≤ 32767 ∧
    -32768 ≤ (0 : ℤ) ∧ (0 : ℤ) ≤ 32767 :=
  (processed_samples_within_int16 sqId mixZeroVoc [(1000, 0)] [(0, 0)]).2
    (999, 0) (by rw [mixzero_block_eval]; exact List.mem_singleton.mpr rfl)

/-- The envelope coefficients `recalc_bands` computes lie strictly between
0 and 1, for every time-constant input (the 0.1 ms floor makes the exponent
argument strictly negative). -/
theorem env_coeff_real_mem (ms : ℝ) :
    0 < env_coeff_real ms ∧ env_coeff_real ms < 1 := by
  unfold env_coeff_real
  have hd : 0 < (if ms < 0.1 then 0.1 else ms) * 0.001 * 44100 := by
    split_ifs with h
    · norm_num
    · push_neg at h
      nlinarith
  constructor
  · have : Real.exp (-(1 / ((if ms < 0.1 then 0.1 else ms) * 0.001 * 44100))) < 1 := by
      rw [Real.exp_lt_one_iff]
      rw [neg_lt, neg_zero]
      positivity
    linarith
  · have : 0 < Real.exp (-(1 / ((if ms < 0.1 then 0.1 else ms) * 0.001 * 44100))) :=
      Real.exp_pos _
    linarith

/-- The envelope follower run over a list of inputs, starting from a given
level (the per-sample loop of `v2_process_block` restricted to one band's
envelope state). -/
def envRun {α : Type} [LinearOrderedField α] (att rel : α) : α → List α → α
  | lvl, [] => lvl
  | lvl, x :: xs => envRun att rel (env_follow lvl x att rel) xs

/-- The largest rectified input of a list (0 for the empty list). -/
def maxAbsList {α : Type} [LinearOrderedField α] (xs : List α) : α :=
  xs.foldr (fun x m => max |x| m) 0

/-- The largest rectified input is nonnegative. -/
theorem maxAbsList_nonneg {α : Type} [LinearOrderedField α] (xs : List α) :
    0 ≤ maxAbsList xs := by
  induction xs with
  | nil => exact le_refl 0
  | cons x xs ih =>
    exact le_trans ih (le_max_right _ _)

/-- One envelope step keeps the level nonnegative and below the maximum of
the old level and the rectified input, for coefficients in (0,1). -/
theorem env_follow_nonneg_le {α : Type} [LinearOrderedField α]
    {att rel lvl : α} (x : α)
    (ha1 : 0 < att) (ha2 : att < 1) (hr1 : 0 < rel) (hr2 : rel < 1)
    (hlvl : 0 ≤ lvl) :
    0 ≤ env_follow lvl x att rel ∧
    env_follow lvl x att rel ≤ max lvl |x| := by
  simp only [env_follow]
  have hr0 : 0 ≤ |x| := abs_nonneg x
  split_ifs with h
  · constructor
    · nlinarith
    · have hle : lvl + att * (|x| - lvl) ≤ |x| := by nlinarith
      exact hle.trans (le_max_right _ _)
  · push_neg at h
    constructor
    · nlinarith
    · have hle : lvl + rel * (|x| - lvl) ≤ lvl := by nlinarith
      exact hle.trans (le_max_left _ _)

/-- The envelope run stays nonnegative and below the running maximum, for
coefficients in (0,1). -/
theorem envRun_le {α : Type} [LinearOrderedField α] {att rel : α}
    (ha1 : 0 < att) (ha2 : att < 1) (hr1 : 0 < rel) (hr2 : rel < 1) :
    ∀ (xs : List α) (lvl : α), 0 ≤ lvl →
      0 ≤ envRun att rel lvl xs ∧
      envRun att rel lvl xs ≤ max lvl (maxAbsList xs) := by
  intro xs
  induction xs with
  | nil =>
    intro lvl h
    exact ⟨h, le_max_left _ _⟩
  | cons x xs ih =>
    intro lvl hlvl
    have hstep := env_follow_nonneg_le x ha1 ha2 hr1 hr2 hlvl
    have hrec := ih (env_follow lvl x att rel) hstep.1
    refine ⟨hrec.1, ?_⟩
    calc envRun att rel lvl (x :: xs)
        = envRun att rel (env_follow lvl x att rel) xs := rfl
      _ ≤ max (env_follow lvl x att rel) (maxAbsList xs) := hrec.2
      _ ≤ max (max lvl |x|) (maxAbsList xs) :=
          max_le_max hstep.2 (le_refl _)
      _ = max lvl (maxAbsList (x :: xs)) := by
          rw [max_assoc]
          rfl

/-- C10: starting from the zeroed state with the attack and release
coefficients produced by `recalc_bands` — which lie strictly in (0,1) for
every time-constant input — the envelope-follower level stays nonnegative
after every update and never exceeds the largest rectified input seen. -/
theorem envelope_level_bounded :
    ∀ (attMs relMs : ℝ) (xs : List ℝ),
      (0 < env_coeff_real attMs ∧ env_coeff_real attMs < 1) ∧
      (0 < env_coeff_real relMs ∧ env_coeff_real relMs < 1) ∧
      0 ≤ envRun (env_coeff_real attMs) (env_coeff_real relMs) 0 xs ∧
      envRun (env_coeff_real attMs) (env_coeff_real relMs) 0 xs ≤
        maxAbsList xs := by
  intro attMs relMs xs
  have ha := env_coeff_real_mem attMs
  have hr := env_coeff_real_mem relMs
  have h := envRun_le ha.1 ha.2 hr.1 hr.2 xs 0 le_rfl
  refine ⟨ha, hr, h.1, ?_⟩
  have h2 := h.2
  rwa [max_eq_right (maxAbsList_nonneg xs)] at h2
